import Mathlib

/-!
Verification of the Click-creation workflow and related operations of the
snuggle-login-app repository, as a shallow embedding in Lean 4.

The embedding follows the source files:
- src/components/clicks/CreateClickDialog.tsx : the zod schema
  createClickSchema, the onSubmit workflow, the available-users query, the
  member selection handler and removeSelectedMember.
- src/types/click.ts (profile component) : handleAvatarUpload.

Backend calls (supabase inserts, storage upload, profile update) are modelled
as oracles: records of functions giving, for each issued request, either the
produced row or an error message. Each workflow run produces an explicit trace
of issued writes and emitted toasts, so ordering, gating and notification
claims are statements about the trace.
-/

namespace Snuggle

/-- JavaScript values as they appear in the insert payloads: the code writes
`x || null` for optional fields, which distinguishes undefined, null, strings
and numbers.  Only the shapes that occur in the payloads are modelled. -/
inductive JVal where
  | undef : JVal
  | jnull : JVal
  | jstr : String → JVal
  | jnum : Nat → JVal
deriving DecidableEq, Repr

/-- JavaScript truthiness restricted to the modelled values: undefined and
null are falsy, the empty string is falsy, the number 0 is falsy. -/
def JVal.truthy : JVal → Bool
  | .undef => false
  | .jnull => false
  | .jstr s => s ≠ ""
  | .jnum n => n ≠ 0

/-- The source writes `v || null` in the group-insert payload; this is that
operator specialised to the null right-hand side. -/
def jsOrNull (v : JVal) : JVal := if v.truthy then v else .jnull

/-- An optional string field of the form data as a JavaScript value: an
absent field is undefined. -/
def jvalOfOptStr : Option String → JVal
  | none => .undef
  | some s => .jstr s

/-- An optional numeric field of the form data as a JavaScript value. -/
def jvalOfOptNat : Option Nat → JVal
  | none => .undef
  | some n => .jnum n

/-- The schedule_frequency enum of createClickSchema. -/
inductive ClickFrequency where
  | daily | weekly | monthly
deriving DecidableEq, Repr

/-- The string value the enum member carries over the wire. -/
def ClickFrequency.str : ClickFrequency → String
  | .daily => "daily"
  | .weekly => "weekly"
  | .monthly => "monthly"

/-- An optional frequency field as a JavaScript value. -/
def jvalOfOptFreq : Option ClickFrequency → JVal
  | none => .undef
  | some f => .jstr f.str

/-- The parsed form data of createClickSchema (FormData in the source):
name is required, the rest optional. -/
structure FormInput where
  name : String
  description : Option String
  schedule_frequency : Option ClickFrequency
  schedule_day : Option Nat
  schedule_time : Option String
deriving DecidableEq, Repr

/-- One field-level validation issue, as produced by the zod resolver. -/
structure FieldIssue where
  field : String
  message : String
deriving DecidableEq, Repr

/-- Issues of `z.string().min(3, "Name must be at least 3 characters").max(50)`
on the name field: zod runs every check of the chain and collects all issues. -/
def nameIssues (name : String) : List FieldIssue :=
  (if name.length < 3 then [⟨"name", "Name must be at least 3 characters"⟩] else []) ++
  (if 50 < name.length then [⟨"name", "String must contain at most 50 characters"⟩] else [])

/-- Issues of `z.string().max(500).optional()` on the description field. -/
def descriptionIssues : Option String → List FieldIssue
  | none => []
  | some s =>
      if 500 < s.length then [⟨"description", "String must contain at most 500 characters"⟩]
      else []

/-- Issues of `z.coerce.number().min(1).max(31).optional()` on schedule_day. -/
def scheduleDayIssues : Option Nat → List FieldIssue
  | none => []
  | some n =>
      (if n < 1 then [⟨"schedule_day", "Number must be greater than or equal to 1"⟩] else []) ++
      (if 31 < n then [⟨"schedule_day", "Number must be less than or equal to 31"⟩] else [])

/-- Validation of createClickSchema: schedule_frequency is typed by the form
and schedule_time is an unconstrained optional string, so only name,
description and schedule_day can produce issues. -/
def validateCreateClick (input : FormInput) : List FieldIssue :=
  nameIssues input.name ++ descriptionIssues input.description ++
    scheduleDayIssues input.schedule_day

/-- The row payload of the clicks-table insert in onSubmit, with optional
fields passed through `|| null`. -/
structure GroupPayload where
  name : JVal
  description : JVal
  schedule_frequency : JVal
  schedule_day : JVal
  schedule_time : JVal
  created_by : JVal
deriving DecidableEq, Repr

/-- The payload built at the clicks insert of onSubmit. -/
def groupPayloadOf (data : FormInput) (uid : String) : GroupPayload where
  name := .jstr data.name
  description := jsOrNull (jvalOfOptStr data.description)
  schedule_frequency := jsOrNull (jvalOfOptFreq data.schedule_frequency)
  schedule_day := jsOrNull (jvalOfOptNat data.schedule_day)
  schedule_time := jsOrNull (jvalOfOptStr data.schedule_time)
  created_by := .jstr uid

/-- The row returned by `.insert(...).select().single()`; only its generated
id is consumed by the workflow. -/
structure GroupRow where
  id : String
deriving DecidableEq, Repr

/-- Membership roles of the click_members table. -/
inductive Role where
  | admin | member
deriving DecidableEq, Repr

/-- The row payload of a click_members insert. -/
structure MembershipPayload where
  click_id : String
  user_id : String
  role : Role
deriving DecidableEq, Repr

/-- A write issued to the backend store. The groupDelete constructor exists in
the observation language so that the absence of a compensating delete is
expressible; the workflow never emits it. -/
inductive WriteEvent where
  | groupInsert : GroupPayload → WriteEvent
  | memberInsert : MembershipPayload → WriteEvent
  | memberBatchInsert : List MembershipPayload → WriteEvent
  | groupDelete : String → WriteEvent
deriving DecidableEq, Repr

/-- A toast notification: the user-facing notification channel. -/
inductive Toast where
  | normal : String → String → Toast
  | destructive : String → String → Toast
deriving DecidableEq, Repr

/-- Backend behaviour for one workflow run: the response to each issued
write. The group insert (insert-select-single) yields either exactly one row
or an error; the membership inserts yield an optional error message. -/
structure Backend where
  groupInsert : GroupPayload → Except String GroupRow
  adminInsert : MembershipPayload → Option String
  batchInsert : List MembershipPayload → Option String

/-- A member selected in the invite list of the dialog. -/
structure SelectedMember where
  id : String
  email : String
deriving DecidableEq, Repr

/-- Result of one submission run: field errors rendered inline by the form,
the trace of issued writes in order, the toasts emitted, and whether the
success epilogue (close dialog, reset form) ran. -/
structure SubmitResult where
  fieldErrors : List FieldIssue
  writes : List WriteEvent
  toasts : List Toast
  closedDialog : Bool
  formReset : Bool
deriving DecidableEq, Repr

/-- The toast of the unauthenticated early return in onSubmit. -/
def unauthToast : Toast :=
  .destructive "Error" "You must be logged in to create a Click."

/-- The toast of the catch block in onSubmit; supabase errors extend Error,
so their message is displayed. -/
def errorToast (msg : String) : Toast := .destructive "Error" msg

/-- The success toast of onSubmit. -/
def successToast : Toast :=
  .normal "Click created!" "Your new Click has been created successfully."

/-- The admin-membership payload inserted for the creator. -/
def adminMembershipOf (click : GroupRow) (uid : String) : MembershipPayload :=
  ⟨click.id, uid, .admin⟩

/-- The batched member payloads: `selectedMembers.map` in the source, with no
filtering of the caller. -/
def inviteeMembershipsOf (click : GroupRow) (members : List SelectedMember) :
    List MembershipPayload :=
  members.map (fun m => ⟨click.id, m.id, .member⟩)

/-- The onSubmit handler of CreateClickDialog: unauthenticated check, group
insert, admin-membership insert, optional batched invitee insert, with every
thrown error landing in one catch block that emits a destructive toast. -/
def onSubmit (user : Option String) (selectedMembers : List SelectedMember)
    (data : FormInput) (b : Backend) : SubmitResult :=
  match user with
  | none =>
      { fieldErrors := [], writes := [], toasts := [unauthToast],
        closedDialog := false, formReset := false }
  | some uid =>
      let p := groupPayloadOf data uid
      match b.groupInsert p with
      | .error e =>
          { fieldErrors := [], writes := [.groupInsert p], toasts := [errorToast e],
            closedDialog := false, formReset := false }
      | .ok click =>
          let a := adminMembershipOf click uid
          match b.adminInsert a with
          | some e =>
              { fieldErrors := [], writes := [.groupInsert p, .memberInsert a],
                toasts := [errorToast e], closedDialog := false, formReset := false }
          | none =>
              if selectedMembers.isEmpty then
                { fieldErrors := [], writes := [.groupInsert p, .memberInsert a],
                  toasts := [successToast], closedDialog := true, formReset := true }
              else
                let batch := inviteeMembershipsOf click selectedMembers
                match b.batchInsert batch with
                | some e =>
                    { fieldErrors := [],
                      writes := [.groupInsert p, .memberInsert a, .memberBatchInsert batch],
                      toasts := [errorToast e], closedDialog := false, formReset := false }
                | none =>
                    { fieldErrors := [],
                      writes := [.groupInsert p, .memberInsert a, .memberBatchInsert batch],
                      toasts := [successToast], closedDialog := true, formReset := true }

/-- The full submission pipeline: form.handleSubmit(onSubmit) runs the zod
resolver first; when validation fails, onSubmit is never invoked and the
issues are rendered inline by the FormMessage components, with no toast. -/
def handleSubmitWorkflow (user : Option String) (selectedMembers : List SelectedMember)
    (input : FormInput) (b : Backend) : SubmitResult :=
  let issues := validateCreateClick input
  if issues.isEmpty then onSubmit user selectedMembers input b
  else
    { fieldErrors := issues, writes := [], toasts := [],
      closedDialog := false, formReset := false }

/-- All membership rows written by a trace, one row per memberInsert and one
per element of a memberBatchInsert. -/
def membershipRows : List WriteEvent → List MembershipPayload
  | [] => []
  | .memberInsert p :: rest => p :: membershipRows rest
  | .memberBatchInsert ps :: rest => ps ++ membershipRows rest
  | _ :: rest => membershipRows rest

/-- How many membership rows of a trace are for a given user. -/
def membershipCountFor (uid : String) (ws : List WriteEvent) : Nat :=
  (membershipRows ws).countP (fun p => p.user_id == uid)

/-! ### Member selection state of the dialog

The dialog holds selectedMembers; the available-users query returns profiles
with id not equal to the caller, the CommandItem onSelect handler adds a
candidate only when no entry with that id exists, removeSelectedMember
filters by id, and both Cancel and the success epilogue reset to []. -/

/-- The available-users query: `.select("id, email:username").neq("id", user.id)`
over the profiles table. -/
def availableUsers (profiles : List SelectedMember) (callerId : String) :
    List SelectedMember :=
  profiles.filter (fun p => p.id != callerId)

/-- The onSelect handler of a CommandItem: add the user unless an entry with
the same id already exists. -/
def selectMember (prev : List SelectedMember) (u : SelectedMember) :
    List SelectedMember :=
  match prev.find? (fun m => m.id == u.id) with
  | some _ => prev
  | none => prev ++ [u]

/-- removeSelectedMember: keep the entries whose id differs. -/
def removeSelectedMember (prev : List SelectedMember) (userId : String) :
    List SelectedMember :=
  prev.filter (fun m => m.id != userId)

/-- The selectedMembers states the dialog can reach, for a given caller and
profiles table: initially [], then any sequence of selections from the
available-users query, removals, and resets. -/
inductive ReachableSelection (callerId : String) (profiles : List SelectedMember) :
    List SelectedMember → Prop where
  | init : ReachableSelection callerId profiles []
  | select (s : List SelectedMember) (u : SelectedMember) :
      ReachableSelection callerId profiles s →
      u ∈ availableUsers profiles callerId →
      ReachableSelection callerId profiles (selectMember s u)
  | remove (s : List SelectedMember) (userId : String) :
      ReachableSelection callerId profiles s →
      ReachableSelection callerId profiles (removeSelectedMember s userId)
  | reset (s : List SelectedMember) :
      ReachableSelection callerId profiles s →
      ReachableSelection callerId profiles []

/-! ### Avatar upload (profile component) -/

/-- The selected file of the avatar input; only its name is consumed. -/
structure AvatarFile where
  name : String
deriving DecidableEq, Repr

/-- `file.name.split(".").pop()`: the extension the upload path uses. -/
def fileExt (name : String) : String := (name.splitOn ".").getLastD ""

/-- The object path `${user.id}/${crypto.randomUUID()}.${fileExt}`. -/
def avatarPath (uid rand fname : String) : String :=
  uid ++ "/" ++ rand ++ "." ++ fileExt fname

/-- Storage and profile-update behaviour for one avatar upload run. -/
structure StorageBackend where
  uploadErr : String → Option String
  publicUrl : String → String
  updateErr : String → Option String

/-- An operation issued by handleAvatarUpload. -/
inductive AvatarEvent where
  | storageUpload : String → AvatarEvent
  | profileAvatarUpdate : String → AvatarEvent
deriving DecidableEq, Repr

/-- Result of one avatar upload run. -/
structure AvatarResult where
  events : List AvatarEvent
  toasts : List Toast
deriving DecidableEq, Repr

/-- The fixed description of the catch block of handleAvatarUpload. -/
def avatarErrorToast : Toast := .destructive "Error" "Error uploading avatar."

/-- handleAvatarUpload: reject an empty file selection, upload the object
under the namespaced path, resolve its public URL, then update the profile
avatar_url; any thrown error lands in one catch that emits a destructive
toast with a fixed description. -/
def handleAvatarUpload (uid rand : String) (files : List AvatarFile)
    (b : StorageBackend) : AvatarResult :=
  match files with
  | [] => { events := [], toasts := [avatarErrorToast] }
  | file :: _ =>
      let path := avatarPath uid rand file.name
      match b.uploadErr path with
      | some _ => { events := [.storageUpload path], toasts := [avatarErrorToast] }
      | none =>
          let url := b.publicUrl path
          match b.updateErr url with
          | some _ =>
              { events := [.storageUpload path, .profileAvatarUpdate url],
                toasts := [avatarErrorToast] }
          | none =>
              { events := [.storageUpload path, .profileAvatarUpdate url],
                toasts := [.normal "Success" "Avatar updated successfully"] }

/-! ### Spec-side characterizations and concrete sample data -/

/-- Spec-side: the name constraint of the schema is violated. -/
def nameViolatedB (n : String) : Bool :=
  decide (n.length < 3) || decide (50 < n.length)

/-- Spec-side: the description constraint is violated. -/
def descViolatedB : Option String → Bool
  | none => false
  | some s => decide (500 < s.length)

/-- Spec-side: the schedule_day constraint is violated. -/
def dayViolatedB : Option Nat → Bool
  | none => false
  | some n => decide (n < 1) || decide (31 < n)

/-- Spec-side: the given form field is violated by the input. -/
def fieldViolated (input : FormInput) (f : String) : Bool :=
  (f == "name" && nameViolatedB input.name) ||
  (f == "description" && descViolatedB input.description) ||
  (f == "schedule_day" && dayViolatedB input.schedule_day)

/-- A valid sample input (the scenario of the spec, with the form defaults
for the unfilled optional fields). -/
def inputA : FormInput := ⟨"Family Photos", some "", none, none, none⟩

/-- A sample input whose name is below the minimum length. -/
def invalidNameInput : FormInput := ⟨"ab", some "", none, none, none⟩

/-- A backend on which every write succeeds, returning group id G1. -/
def bAllOk : Backend :=
  ⟨fun _ => .ok ⟨"G1"⟩, fun _ => none, fun _ => none⟩

/-- A backend on which the group insert fails. -/
def bGroupFailA : Backend :=
  ⟨fun _ => .error "boom", fun _ => none, fun _ => none⟩

/-- A backend on which the group insert succeeds and the admin-membership
insert fails with the same underlying message as bGroupFailA. -/
def bAdminFailA : Backend :=
  ⟨fun _ => .ok ⟨"G1"⟩, fun _ => some "boom", fun _ => none⟩

/-- A sample invitee entry carrying the caller's own identifier. -/
def callerInvitee : SelectedMember := ⟨"U1", "u1@example.com"⟩

/-- A sample profiles table containing the caller and one other user. -/
def profilesA : List SelectedMember := [⟨"U1", "a@example.com"⟩, ⟨"U2", "b@example.com"⟩]

/-- A storage backend whose upload fails. -/
def sbUploadFail : StorageBackend :=
  ⟨fun _ => some "denied", fun p => "https://cdn/" ++ p, fun _ => none⟩

/-! ## Theorems -/

/-- Every terminal path of onSubmit emits exactly one toast: the
unauthenticated return, the catch block reached from any failed write, and
the success epilogue each produce a single toast call. -/
theorem onSubmit_toasts_length (user : Option String) (members : List SelectedMember)
    (data : FormInput) (b : Backend) : (onSubmit user members data b).toasts.length = 1 := by
  cases user with
  | none => rfl
  | some uid =>
      cases hg : b.groupInsert (groupPayloadOf data uid) with
      | error e => simp [onSubmit, hg]
      | ok click =>
          cases ha : b.adminInsert (adminMembershipOf click uid) with
          | some e => simp [onSubmit, hg, ha]
          | none =>
              by_cases hm : members.isEmpty
              · simp [onSubmit, hg, ha, hm]
              · cases hb : b.batchInsert (inviteeMembershipsOf click members) with
                | some e => simp [onSubmit, hg, ha, hm, hb]
                | none => simp [onSubmit, hg, ha, hm, hb]

/-- Claim C5: when no authenticated user identifier is present, onSubmit
stops at the unauthenticated guard: it emits the logged-in-required
destructive toast and issues zero backend writes. -/
theorem onSubmit_unauthenticated_no_writes (members : List SelectedMember)
    (data : FormInput) (b : Backend) :
    (onSubmit none members data b).writes = [] ∧
    (onSubmit none members data b).toasts = [unauthToast] ∧
    (onSubmit none members data b).closedDialog = false :=
  ⟨rfl, rfl, rfl⟩

/-- Claim C2: if the group insert fails (the insert-select-single oracle
reports returning no row as an error as well), the run aborts: the trace
holds only the group insert, zero membership rows are written, and the
failure is surfaced with the underlying cause. -/
theorem onSubmit_groupInsertFails_aborts (uid : String) (members : List SelectedMember)
    (data : FormInput) (b : Backend) (e : String)
    (hg : b.groupInsert (groupPayloadOf data uid) = .error e) :
    (onSubmit (some uid) members data b).writes = [.groupInsert (groupPayloadOf data uid)] ∧
    membershipRows (onSubmit (some uid) members data b).writes = [] ∧
    (onSubmit (some uid) members data b).toasts = [errorToast e] ∧
    (onSubmit (some uid) members data b).closedDialog = false := by
  refine ⟨?_, ?_, ?_, ?_⟩ <;> simp [onSubmit, hg, membershipRows]

/-- Witness for claim C2 at a concrete backend whose group insert fails. -/
theorem onSubmit_groupInsertFails_aborts_witness :
    (onSubmit (some "U1") [] inputA bGroupFailA).writes =
      [.groupInsert (groupPayloadOf inputA "U1")] ∧
    membershipRows (onSubmit (some "U1") [] inputA bGroupFailA).writes = [] ∧
    (onSubmit (some "U1") [] inputA bGroupFailA).toasts = [errorToast "boom"] ∧
    (onSubmit (some "U1") [] inputA bGroupFailA).closedDialog = false :=
  onSubmit_groupInsertFails_aborts "U1" [] inputA bGroupFailA "boom" rfl

/-- Claim C1, amended: if the group insert succeeds and the admin-membership
insert fails, the trace ends after the failed membership insert with no
compensating groupDelete, so the group row persists; the terminal outcome is
the destructive failure toast of the shared catch block, not the success
epilogue. (The report is the same toast shape a total failure produces; see
the counterexample.) -/
theorem onSubmit_adminInsertFails_groupPersists (uid : String)
    (members : List SelectedMember) (data : FormInput) (b : Backend)
    (click : GroupRow) (e : String)
    (hg : b.groupInsert (groupPayloadOf data uid) = .ok click)
    (ha : b.adminInsert (adminMembershipOf click uid) = some e) :
    (onSubmit (some uid) members data b).writes =
      [.groupInsert (groupPayloadOf data uid), .memberInsert (adminMembershipOf click uid)] ∧
    (onSubmit (some uid) members data b).toasts = [errorToast e] ∧
    (onSubmit (some uid) members data b).closedDialog = false ∧
    (onSubmit (some uid) members data b).formReset = false := by
  refine ⟨?_, ?_, ?_, ?_⟩ <;> simp [onSubmit, hg, ha]

/-- Witness for the amended claim C1 at a concrete backend whose
admin-membership insert fails. -/
theorem onSubmit_adminInsertFails_groupPersists_witness :
    (onSubmit (some "U1") [] inputA bAdminFailA).writes =
      [.groupInsert (groupPayloadOf inputA "U1"),
       .memberInsert (adminMembershipOf ⟨"G1"⟩ "U1")] ∧
    (onSubmit (some "U1") [] inputA bAdminFailA).toasts = [errorToast "boom"] ∧
    (onSubmit (some "U1") [] inputA bAdminFailA).closedDialog = false ∧
    (onSubmit (some "U1") [] inputA bAdminFailA).formReset = false :=
  onSubmit_adminInsertFails_groupPersists "U1" [] inputA bAdminFailA ⟨"G1"⟩ "boom" rfl rfl

/-- Counterexample to claim C1 as stated: a run in which the admin-membership
insert fails after a successful group insert and a run in which the group
insert itself fails produce identical user-facing reports (same single toast,
same dialog state), so the terminal outcome is not reported distinctly from a
total failure; only the write traces differ. -/
theorem onSubmit_report_not_distinct_cex :
    (onSubmit (some "U1") [] inputA bAdminFailA).writes =
      [.groupInsert (groupPayloadOf inputA "U1"),
       .memberInsert (adminMembershipOf ⟨"G1"⟩ "U1")] ∧
    (onSubmit (some "U1") [] inputA bGroupFailA).writes =
      [.groupInsert (groupPayloadOf inputA "U1")] ∧
    (onSubmit (some "U1") [] inputA bAdminFailA).toasts =
      (onSubmit (some "U1") [] inputA bGroupFailA).toasts ∧
    (onSubmit (some "U1") [] inputA bAdminFailA).closedDialog =
      (onSubmit (some "U1") [] inputA bGroupFailA).closedDialog :=
  ⟨rfl, rfl, rfl, rfl⟩

/-- Claim C8: within one authenticated run the writes are issued strictly in
order group insert, admin-membership insert, invitee batch, as one linear
trace; each later write appears only when the previous one completed
successfully. -/
theorem onSubmit_writes_sequential (uid : String) (members : List SelectedMember)
    (data : FormInput) (b : Backend) :
    (∃ e, b.groupInsert (groupPayloadOf data uid) = .error e ∧
      (onSubmit (some uid) members data b).writes =
        [.groupInsert (groupPayloadOf data uid)]) ∨
    (∃ click, b.groupInsert (groupPayloadOf data uid) = .ok click ∧
      (onSubmit (some uid) members data b).writes =
        [.groupInsert (groupPayloadOf data uid),
         .memberInsert (adminMembershipOf click uid)]) ∨
    (∃ click, b.groupInsert (groupPayloadOf data uid) = .ok click ∧
      b.adminInsert (adminMembershipOf click uid) = none ∧
      (onSubmit (some uid) members data b).writes =
        [.groupInsert (groupPayloadOf data uid),
         .memberInsert (adminMembershipOf click uid),
         .memberBatchInsert (inviteeMembershipsOf click members)]) := by
  cases hg : b.groupInsert (groupPayloadOf data uid) with
  | error e => exact Or.inl ⟨e, rfl, by simp [onSubmit, hg]⟩
  | ok click =>
      cases ha : b.adminInsert (adminMembershipOf click uid) with
      | some e => exact Or.inr (Or.inl ⟨click, rfl, by simp [onSubmit, hg, ha]⟩)
      | none =>
          by_cases hm : members.isEmpty
          · exact Or.inr (Or.inl ⟨click, rfl, by simp [onSubmit, hg, ha, hm]⟩)
          · cases hb : b.batchInsert (inviteeMembershipsOf click members) with
            | some e =>
                exact Or.inr (Or.inr ⟨click, rfl, ha, by simp [onSubmit, hg, ha, hm, hb]⟩)
            | none =>
                exact Or.inr (Or.inr ⟨click, rfl, ha, by simp [onSubmit, hg, ha, hm, hb]⟩)

/-- Claim C4, amended: the submission pipeline emits exactly one toast on
every terminal path of onSubmit, and zero toasts on the validation-error
path, where the zod resolver blocks onSubmit and the issues are rendered
inline instead. -/
theorem handleSubmit_toast_count (user : Option String) (members : List SelectedMember)
    (input : FormInput) (b : Backend) :
    (handleSubmitWorkflow user members input b).toasts.length =
      if (validateCreateClick input).isEmpty then 1 else 0 := by
  by_cases h : (validateCreateClick input).isEmpty
  · simp [handleSubmitWorkflow, h, onSubmit_toasts_length]
  · simp [handleSubmitWorkflow, h]

/-- Counterexample to claim C4 as stated: the validation-error terminal path
for a too-short name emits zero toasts (the run ends with inline field
errors, no writes, and an empty toast list), not exactly one notification. -/
theorem handleSubmit_validation_no_toast_cex :
    (handleSubmitWorkflow (some "U1") [] invalidNameInput bAllOk).fieldErrors ≠ [] ∧
    (handleSubmitWorkflow (some "U1") [] invalidNameInput bAllOk).toasts = [] ∧
    (handleSubmitWorkflow (some "U1") [] invalidNameInput bAllOk).writes = [] := by
  refine ⟨by decide, by decide, by decide⟩

/-- Claim C9: avatar replacement uploads to the path
uid/rand.extension-of-the-file-name and only then updates the profile avatar
reference to the public URL of that path; when the upload fails, no profile
update is issued and the destructive avatar toast is emitted. -/
theorem handleAvatarUpload_two_step (uid rand fname : String) (rest : List AvatarFile)
    (b : StorageBackend) :
    avatarPath uid rand fname = uid ++ "/" ++ rand ++ "." ++ fileExt fname ∧
    (handleAvatarUpload uid rand (⟨fname⟩ :: rest) b).events.head? =
      some (.storageUpload (avatarPath uid rand fname)) ∧
    (match b.uploadErr (avatarPath uid rand fname) with
     | some _ =>
        (handleAvatarUpload uid rand (⟨fname⟩ :: rest) b).events =
          [.storageUpload (avatarPath uid rand fname)] ∧
        (handleAvatarUpload uid rand (⟨fname⟩ :: rest) b).toasts = [avatarErrorToast]
     | none =>
        (handleAvatarUpload uid rand (⟨fname⟩ :: rest) b).events =
          [.storageUpload (avatarPath uid rand fname),
           .profileAvatarUpdate (b.publicUrl (avatarPath uid rand fname))]) := by
  refine ⟨rfl, ?_, ?_⟩
  · cases hu : b.uploadErr (avatarPath uid rand fname) with
    | some e => simp [handleAvatarUpload, hu]
    | none =>
        cases hup : b.updateErr (b.publicUrl (avatarPath uid rand fname)) with
        | some e => simp [handleAvatarUpload, hu, hup]
        | none => simp [handleAvatarUpload, hu, hup]
  · cases hu : b.uploadErr (avatarPath uid rand fname) with
    | some e => simp [handleAvatarUpload, hu]
    | none =>
        cases hup : b.updateErr (b.publicUrl (avatarPath uid rand fname)) with
        | some e => simp [handleAvatarUpload, hu, hup]
        | none => simp [handleAvatarUpload, hu, hup]

/-- An optional string passed through `|| null` is never undefined: it is
null or the supplied string. -/
theorem jsOrNull_optStr_spec (o : Option String) :
    jsOrNull (jvalOfOptStr o) ≠ .undef ∧
    (jsOrNull (jvalOfOptStr o) = .jnull ∨
      ∃ s, o = some s ∧ jsOrNull (jvalOfOptStr o) = .jstr s) := by
  cases o with
  | none => simp [jsOrNull, jvalOfOptStr, JVal.truthy]
  | some s =>
      by_cases h : s = ""
      · subst h; simp [jsOrNull, jvalOfOptStr, JVal.truthy]
      · refine ⟨by simp [jsOrNull, jvalOfOptStr, JVal.truthy, h], ?_⟩
        exact Or.inr ⟨s, rfl, by simp [jsOrNull, jvalOfOptStr, JVal.truthy, h]⟩

/-- The wire string of a frequency value is never empty. -/
theorem freqStr_ne_empty (f : ClickFrequency) : f.str ≠ "" := by
  cases f <;> simp [ClickFrequency.str]

/-- An optional frequency passed through `|| null` is never undefined. -/
theorem jsOrNull_optFreq_spec (o : Option ClickFrequency) :
    jsOrNull (jvalOfOptFreq o) ≠ .undef ∧
    (jsOrNull (jvalOfOptFreq o) = .jnull ∨
      ∃ f, o = some f ∧ jsOrNull (jvalOfOptFreq o) = .jstr f.str) := by
  cases o with
  | none => simp [jsOrNull, jvalOfOptFreq, JVal.truthy]
  | some f =>
      refine ⟨by simp [jsOrNull, jvalOfOptFreq, JVal.truthy, freqStr_ne_empty f], ?_⟩
      exact Or.inr ⟨f, rfl, by simp [jsOrNull, jvalOfOptFreq, JVal.truthy, freqStr_ne_empty f]⟩

/-- An optional number passed through `|| null` is never undefined: it is
null (also for the falsy 0) or the supplied number. -/
theorem jsOrNull_optNat_spec (o : Option Nat) :
    jsOrNull (jvalOfOptNat o) ≠ .undef ∧
    (jsOrNull (jvalOfOptNat o) = .jnull ∨
      ∃ n, o = some n ∧ jsOrNull (jvalOfOptNat o) = .jnum n) := by
  cases o with
  | none => simp [jsOrNull, jvalOfOptNat, JVal.truthy]
  | some n =>
      by_cases h : n = 0
      · subst h; simp [jsOrNull, jvalOfOptNat, JVal.truthy]
      · refine ⟨by simp [jsOrNull, jvalOfOptNat, JVal.truthy, h], ?_⟩
        exact Or.inr ⟨n, rfl, by simp [jsOrNull, jvalOfOptNat, JVal.truthy, h]⟩

/-- Claim C7: the group-insert payload always carries created_by equal to the
caller's identifier, and each optional field is the explicitly supplied value
or the null sentinel, never undefined. -/
theorem groupPayload_fields (data : FormInput) (uid : String) :
    (groupPayloadOf data uid).created_by = .jstr uid ∧
    (groupPayloadOf data uid).name = .jstr data.name ∧
    ((groupPayloadOf data uid).description ≠ .undef ∧
      ((groupPayloadOf data uid).description = .jnull ∨
        ∃ s, data.description = some s ∧ (groupPayloadOf data uid).description = .jstr s)) ∧
    ((groupPayloadOf data uid).schedule_frequency ≠ .undef ∧
      ((groupPayloadOf data uid).schedule_frequency = .jnull ∨
        ∃ f, data.schedule_frequency = some f ∧
          (groupPayloadOf data uid).schedule_frequency = .jstr f.str)) ∧
    ((groupPayloadOf data uid).schedule_day ≠ .undef ∧
      ((groupPayloadOf data uid).schedule_day = .jnull ∨
        ∃ n, data.schedule_day = some n ∧
          (groupPayloadOf data uid).schedule_day = .jnum n)) ∧
    ((groupPayloadOf data uid).schedule_time ≠ .undef ∧
      ((groupPayloadOf data uid).schedule_time = .jnull ∨
        ∃ s, data.schedule_time = some s ∧
          (groupPayloadOf data uid).schedule_time = .jstr s)) :=
  ⟨rfl, rfl, jsOrNull_optStr_spec data.description,
   jsOrNull_optFreq_spec data.schedule_frequency,
   jsOrNull_optNat_spec data.schedule_day,
   jsOrNull_optStr_spec data.schedule_time⟩

/-- Claim C10: every selectedMembers state the dialog can reach has pairwise
distinct user identifiers and never contains the caller: the candidate query
excludes the caller, selection adds an entry only when no entry with that id
exists, and removal filters by id. -/
theorem reachableSelection_invariant (callerId : String)
    (profiles : List SelectedMember) (s : List SelectedMember)
    (h : ReachableSelection callerId profiles s) :
    (s.map SelectedMember.id).Nodup ∧ callerId ∉ s.map SelectedMember.id := by
  induction h with
  | init => simp
  | @select s u hs hu ih =>
      obtain ⟨hnd, hc⟩ := ih
      cases hfind : s.find? (fun m => m.id == u.id) with
      | some m =>
          have hsel : selectMember s u = s := by simp [selectMember, hfind]
          rw [hsel]
          exact ⟨hnd, hc⟩
      | none =>
          have hsel : selectMember s u = s ++ [u] := by simp [selectMember, hfind]
          have hnotin : u.id ∉ s.map SelectedMember.id := by
            intro hmem
            obtain ⟨m, hm, hid⟩ := List.mem_map.mp hmem
            have hfalse := List.find?_eq_none.mp hfind m hm
            simp [hid] at hfalse
          have hune : u.id ≠ callerId := by
            have hmem := hu
            rw [availableUsers, List.mem_filter] at hmem
            simpa using hmem.2
          rw [hsel]
          constructor
          · rw [List.map_append]
            refine List.Nodup.append hnd (by simp) ?_
            intro a ha hb
            simp only [List.map_cons, List.map_nil, List.mem_singleton] at hb
            subst hb
            exact hnotin ha
          · rw [List.map_append]
            simp only [List.mem_append, List.map_cons, List.map_nil,
              List.mem_singleton]
            rintro (hmem | hmem)
            · exact hc hmem
            · exact hune hmem.symm
  | @remove s userId hs ih =>
      obtain ⟨hnd, hc⟩ := ih
      have hsub : List.Sublist ((removeSelectedMember s userId).map SelectedMember.id)
          (s.map SelectedMember.id) :=
        List.Sublist.map SelectedMember.id (List.filter_sublist s)
      exact ⟨List.Nodup.sublist hsub hnd, fun hmem => hc (hsub.subset hmem)⟩
  | @reset s hs ih => simp

/-- Witness for claim C10: the state obtained by selecting user U2 from the
candidates of caller U1 satisfies the invariant. -/
theorem reachableSelection_invariant_witness :
    ((selectMember [] ⟨"U2", "b@example.com"⟩).map SelectedMember.id).Nodup ∧
      "U1" ∉ (selectMember [] ⟨"U2", "b@example.com"⟩).map SelectedMember.id :=
  reachableSelection_invariant "U1" profilesA _
    (ReachableSelection.select [] ⟨"U2", "b@example.com"⟩ ReachableSelection.init
      (by decide))

/-- Claim C6, amended: when the batch step runs, the batched insert contains
one role-member row per element of the invitee list, with no filtering of the
caller inside the workflow; for invitee lists that do not contain the caller
(the only lists the dialog can supply, by the reachable-state invariant) the
caller receives exactly one membership row, the admin row. -/
theorem onSubmit_inviteeBatch_no_caller_dup (uid : String)
    (members : List SelectedMember) (data : FormInput) (b : Backend)
    (click : GroupRow)
    (hg : b.groupInsert (groupPayloadOf data uid) = .ok click)
    (ha : b.adminInsert (adminMembershipOf click uid) = none)
    (hm : members ≠ [])
    (hcaller : uid ∉ members.map SelectedMember.id) :
    (onSubmit (some uid) members data b).writes =
      [.groupInsert (groupPayloadOf data uid),
       .memberInsert (adminMembershipOf click uid),
       .memberBatchInsert (members.map (fun m => ⟨click.id, m.id, .member⟩))] ∧
    (∀ q ∈ inviteeMembershipsOf click members, q.role = .member ∧ q.user_id ≠ uid) ∧
    membershipCountFor uid (onSubmit (some uid) members data b).writes = 1 := by
  have hm' : members.isEmpty = false := by
    cases members with
    | nil => exact absurd rfl hm
    | cons a l => rfl
  have hw : (onSubmit (some uid) members data b).writes =
      [.groupInsert (groupPayloadOf data uid),
       .memberInsert (adminMembershipOf click uid),
       .memberBatchInsert (inviteeMembershipsOf click members)] := by
    cases hb : b.batchInsert (inviteeMembershipsOf click members) with
    | some e => simp [onSubmit, hg, ha, hm', hb]
    | none => simp [onSubmit, hg, ha, hm', hb]
  refine ⟨hw, ?_, ?_⟩
  · intro q hq
    obtain ⟨m, hmem, rfl⟩ := List.mem_map.mp hq
    refine ⟨rfl, ?_⟩
    intro hEq
    exact hcaller (List.mem_map.mpr ⟨m, hmem, hEq⟩)
  · have h0 : (inviteeMembershipsOf click members).countP
        (fun p => p.user_id == uid) = 0 := by
      refine List.countP_eq_zero.mpr ?_
      intro p hp
      obtain ⟨m, hmem, rfl⟩ := List.mem_map.mp hp
      simp only [beq_iff_eq]
      intro hEq
      exact hcaller (List.mem_map.mpr ⟨m, hmem, hEq⟩)
    rw [hw]
    simp [membershipCountFor, membershipRows, adminMembershipOf,
      List.countP_cons, List.countP_append, h0]

/-- Witness for the amended claim C6 at a concrete one-invitee run. -/
theorem onSubmit_inviteeBatch_no_caller_dup_witness :
    (onSubmit (some "U1") [⟨"U2", "b@example.com"⟩] inputA bAllOk).writes =
      [.groupInsert (groupPayloadOf inputA "U1"),
       .memberInsert (adminMembershipOf ⟨"G1"⟩ "U1"),
       .memberBatchInsert
         ([(⟨"U2", "b@example.com"⟩ : SelectedMember)].map
           (fun m => ⟨GroupRow.id ⟨"G1"⟩, m.id, .member⟩))] ∧
    membershipCountFor "U1"
      (onSubmit (some "U1") [⟨"U2", "b@example.com"⟩] inputA bAllOk).writes = 1 :=
  ⟨(onSubmit_inviteeBatch_no_caller_dup "U1" [⟨"U2", "b@example.com"⟩] inputA bAllOk
      ⟨"G1"⟩ rfl rfl (by decide) (by decide)).1,
   (onSubmit_inviteeBatch_no_caller_dup "U1" [⟨"U2", "b@example.com"⟩] inputA bAllOk
      ⟨"G1"⟩ rfl rfl (by decide) (by decide)).2.2⟩

/-- Counterexample to claim C6 as stated: an invitee list containing the
caller's own identifier makes the batch contain a role-member row for the
caller, so the caller is inserted twice (the admin row and the batch row). -/
theorem onSubmit_caller_in_invitees_cex :
    (onSubmit (some "U1") [callerInvitee] inputA bAllOk).writes =
      [.groupInsert (groupPayloadOf inputA "U1"),
       .memberInsert ⟨"G1", "U1", .admin⟩,
       .memberBatchInsert [⟨"G1", "U1", .member⟩]] ∧
    membershipCountFor "U1"
      (onSubmit (some "U1") [callerInvitee] inputA bAllOk).writes = 2 :=
  ⟨by decide, by decide⟩

/-- Per-field issue count of the name checks: exactly one issue when the
name constraint is violated, none otherwise. -/
theorem nameIssues_count (n : String) (f : String) :
    ((nameIssues n).filter (fun i => i.field == f)).length =
      if f == "name" && nameViolatedB n then 1 else 0 := by
  by_cases hf : f = "name"
  · subst hf
    by_cases h1 : n.length < 3
    · have h2 : ¬ 50 < n.length := by omega
      simp [nameIssues, nameViolatedB, h1, h2]
    · by_cases h2 : 50 < n.length <;> simp [nameIssues, nameViolatedB, h1, h2]
  · have hnf : (("name" : String) == f) = false :=
      beq_eq_false_iff_ne.mpr (fun e => hf e.symm)
    have hbf : (f == "name") = false := beq_eq_false_iff_ne.mpr hf
    by_cases h1 : n.length < 3
    · have h2 : ¬ 50 < n.length := by omega
      simp [nameIssues, h1, h2, hnf, hbf]
    · by_cases h2 : 50 < n.length <;> simp [nameIssues, h1, h2, hnf, hbf]

/-- Per-field issue count of the description check. -/
theorem descriptionIssues_count (d : Option String) (f : String) :
    ((descriptionIssues d).filter (fun i => i.field == f)).length =
      if f == "description" && descViolatedB d then 1 else 0 := by
  cases d with
  | none => simp [descriptionIssues, descViolatedB]
  | some s =>
      by_cases hf : f = "description"
      · subst hf
        by_cases h : 500 < s.length <;> simp [descriptionIssues, descViolatedB, h]
      · have hnf : (("description" : String) == f) = false :=
          beq_eq_false_iff_ne.mpr (fun e => hf e.symm)
        have hbf : (f == "description") = false := beq_eq_false_iff_ne.mpr hf
        by_cases h : 500 < s.length <;>
          simp [descriptionIssues, descViolatedB, h, hnf, hbf]

/-- Per-field issue count of the schedule_day checks. -/
theorem scheduleDayIssues_count (d : Option Nat) (f : String) :
    ((scheduleDayIssues d).filter (fun i => i.field == f)).length =
      if f == "schedule_day" && dayViolatedB d then 1 else 0 := by
  cases d with
  | none => simp [scheduleDayIssues, dayViolatedB]
  | some n =>
      by_cases hf : f = "schedule_day"
      · subst hf
        by_cases h1 : n < 1
        · have h2 : ¬ 31 < n := by omega
          simp [scheduleDayIssues, dayViolatedB, h1, h2]
        · by_cases h2 : 31 < n <;> simp [scheduleDayIssues, dayViolatedB, h1, h2]
      · have hnf : (("schedule_day" : String) == f) = false :=
          beq_eq_false_iff_ne.mpr (fun e => hf e.symm)
        have hbf : (f == "schedule_day") = false := beq_eq_false_iff_ne.mpr hf
        by_cases h1 : n < 1
        · have h2 : ¬ 31 < n := by omega
          simp [scheduleDayIssues, dayViolatedB, h1, h2, hnf, hbf]
        · by_cases h2 : 31 < n <;>
            simp [scheduleDayIssues, dayViolatedB, h1, h2, hnf, hbf]

/-- The validation issue list carries exactly one message per violated field
and none for any other field. -/
theorem countIssues_eq (input : FormInput) (f : String) :
    ((validateCreateClick input).filter (fun i => i.field == f)).length =
      if fieldViolated input f then 1 else 0 := by
  rw [validateCreateClick, List.filter_append, List.filter_append,
      List.length_append, List.length_append,
      nameIssues_count, descriptionIssues_count, scheduleDayIssues_count,
      fieldViolated]
  by_cases h1 : f = "name"
  · subst h1
    have e1 : (("name" : String) == "description") = false := by decide
    have e2 : (("name" : String) == "schedule_day") = false := by decide
    simp [e1, e2]
  · by_cases h2 : f = "description"
    · subst h2
      have e1 : (("description" : String) == "name") = false := by decide
      have e2 : (("description" : String) == "schedule_day") = false := by decide
      simp [e1, e2]
    · by_cases h3 : f = "schedule_day"
      · subst h3
        have e1 : (("schedule_day" : String) == "name") = false := by decide
        have e2 : (("schedule_day" : String) == "description") = false := by decide
        simp [e1, e2]
      · simp [beq_eq_false_iff_ne.mpr h1, beq_eq_false_iff_ne.mpr h2,
          beq_eq_false_iff_ne.mpr h3]

/-- Claim C3: an out-of-range name blocks the whole workflow before any
write: the zod resolver stops the submission, so zero writes and zero toasts
are issued, and the issue list carries exactly one message per violated
field. -/
theorem handleSubmit_invalid_name_blocks (user : Option String)
    (members : List SelectedMember) (input : FormInput) (b : Backend)
    (h : input.name.length < 3 ∨ 50 < input.name.length) :
    (handleSubmitWorkflow user members input b).writes = [] ∧
    (handleSubmitWorkflow user members input b).toasts = [] ∧
    (handleSubmitWorkflow user members input b).fieldErrors =
      validateCreateClick input ∧
    ∀ f, (((handleSubmitWorkflow user members input b).fieldErrors.filter
        (fun i => i.field == f)).length = if fieldViolated input f then 1 else 0) := by
  have hne : (validateCreateClick input).isEmpty = false := by
    rcases h with h1 | h2
    · have h2' : ¬ 50 < input.name.length := by omega
      simp [validateCreateClick, nameIssues, h1, h2']
    · have h1' : ¬ input.name.length < 3 := by omega
      simp [validateCreateClick, nameIssues, h1', h2]
  refine ⟨?_, ?_, ?_, ?_⟩
  · simp [handleSubmitWorkflow, hne]
  · simp [handleSubmitWorkflow, hne]
  · simp [handleSubmitWorkflow, hne]
  · intro f
    have hfe : (handleSubmitWorkflow user members input b).fieldErrors =
        validateCreateClick input := by simp [handleSubmitWorkflow, hne]
    rw [hfe]
    exact countIssues_eq input f

/-- Witness for claim C3 at the concrete too-short name of the spec
scenario. -/
theorem handleSubmit_invalid_name_blocks_witness :
    (handleSubmitWorkflow (some "U1") [] invalidNameInput bAllOk).writes = [] ∧
    (handleSubmitWorkflow (some "U1") [] invalidNameInput bAllOk).toasts = [] ∧
    ((handleSubmitWorkflow (some "U1") [] invalidNameInput bAllOk).fieldErrors.filter
        (fun i => i.field == "name")).length = 1 := by
  have h := handleSubmit_invalid_name_blocks (some "U1") [] invalidNameInput bAllOk
    (Or.inl (by decide))
  refine ⟨h.1, h.2.1, ?_⟩
  rw [h.2.2.2 "name"]
  decide

end Snuggle
